import Mathlib

/-!
Verification development for the modl-gg/admin repository.

The only component with non-trivial runtime behavior is the process log
streamer (`PM2LogService` in the server sources): it parses each line of a
monitored subprocess's output into a structured log entry, persists it,
republishes it to real-time subscribers, forwards error/critical entries to a
notification channel, and owns a reconnect-with-backoff state machine for the
subprocess attachment.

This file gives a shallow embedding of that component:
* the line parser `parseLogLine` (timestamp stripping, bracketed level token,
  keyword inference) over `List Char`, modelling the JavaScript regexes used
  by the source (`\d` is ASCII 0-9, `\s` the ASCII whitespace class, `.`
  excludes line terminators, `$` anchors at end of input);
* the chunk handlers for stdout/stderr data events;
* the per-record fan-out pipeline (persist / publish / notify) in the
  `Except` monad, with the source's try/catch structure made explicit;
* the streaming/reconnect state machine (`startStreaming`, `stopStreaming`,
  `enableService`, `disableService`, process close/error events, reconnect
  timer firing) as a step function over an explicit state record.
-/

namespace ModlAdmin

/-- The four-valued log level of `PM2LogEntry`. -/
inductive Level where
  | info
  | warning
  | error
  | critical
deriving DecidableEq, Repr

/-- The ASCII portion of the JavaScript `\s` character class (also what
`String.prototype.trim` removes, restricted to ASCII). -/
def jsSpace (c : Char) : Bool :=
  c = ' ' || c = '\t' || c = '\n' || c = '\r' || c = '\x0b' || c = '\x0c'

/-- Line terminators, which the JavaScript `.` pattern refuses to match
(restricted to ASCII: `\n` and `\r`). -/
def lineTerm (c : Char) : Bool :=
  c = '\n' || c = '\r'

/-- JavaScript `String.prototype.trim` (ASCII fragment): drop whitespace from
both ends. -/
def jsTrim (cs : List Char) : List Char :=
  ((cs.dropWhile jsSpace).reverse.dropWhile jsSpace).reverse

/-- Character-by-character shape matching: each predicate must match one
character; returns the remainder of the input on success. -/
def matchShape : List (Char → Bool) → List Char → Option (List Char)
  | [], cs => some cs
  | _ :: _, [] => none
  | p :: ps, c :: cs => if p c then matchShape ps cs else none

/-- A single required character. -/
def chEq (a : Char) (c : Char) : Bool := c = a

/-- The fixed-width prefix of the timestamp regex
`^(\d{4}-\d{2}-\d{2} \d{2}:\d{2}:\d{2}):` — nineteen timestamp characters
followed by a literal colon. -/
def tsShape : List (Char → Bool) :=
  [Char.isDigit, Char.isDigit, Char.isDigit, Char.isDigit, chEq '-',
   Char.isDigit, Char.isDigit, chEq '-', Char.isDigit, Char.isDigit,
   chEq ' ', Char.isDigit, Char.isDigit, chEq ':', Char.isDigit,
   Char.isDigit, chEq ':', Char.isDigit, Char.isDigit, chEq ':']

/-- Backtracking semantics of the regex tail `\s*(.+)$` applied to the text
after the timestamp colon: `\s*` greedily consumes whitespace, `(.+)` needs at
least one character, none of which may be a line terminator, and `$` anchors
at the end of the input.  Returns the text captured by `(.+)` when the match
succeeds.  If the maximal whitespace prefix leaves a nonempty remainder, the
remainder is the capture provided it is terminator-free; if the input is
nonempty but all whitespace, the engine backtracks to capture just the final
character (when it is not a terminator); otherwise there is no match. -/
def wsDotPlus (rest : List Char) : Option (List Char) :=
  if (rest.dropWhile jsSpace).isEmpty then
    match rest.getLast? with
    | some c => if lineTerm c then none else some [c]
    | none => none
  else
    if (rest.dropWhile jsSpace).all (fun c => lineTerm c = false) then
      some (rest.dropWhile jsSpace)
    else none

/-- Matching of the full timestamp regex
`^(\d{4}-\d{2}-\d{2} \d{2}:\d{2}:\d{2}):\s*(.+)$` against a line; on success
returns the second capture group (the content after the timestamp prefix). -/
def stripTimestamp (line : List Char) : Option (List Char) :=
  match matchShape tsShape line with
  | some rest => wsDotPlus rest
  | none => none

/-- The content the level-token regex is applied to: the second timestamp
capture group when the timestamp regex matched, otherwise the whole line. -/
def contentOf (line : List Char) : List Char :=
  (stripTimestamp line).getD line

/-- Case-insensitive literal prefix match (the pattern is lowercase); returns
the remainder of the input after the pattern. -/
def stripPrefixCI : List Char → List Char → Option (List Char)
  | [], t => some t
  | _ :: _, [] => none
  | p :: ps, c :: cs => if c.toLower = p then stripPrefixCI ps cs else none

/-- One alternative of the level-token regex: the token text, case
insensitively, followed by the literal closing bracket.  On success returns
the matched token together with the text after the bracket. -/
def tryAlt (a : List Char) (t : List Char) : Option (List Char × List Char) :=
  match stripPrefixCI a t with
  | some (']' :: r) => some (a, r)
  | _ => none

/-- First alternative that matches, in the order the regex lists them. -/
def firstAlt : List (List Char) → List Char → Option (List Char × List Char)
  | [], _ => none
  | a :: as, t =>
    match tryAlt a t with
    | some res => some res
    | none => firstAlt as t

/-- The alternatives of `^\[(info|warn|warning|error|critical|debug)\]/i`, in
source order. -/
def levelAlts : List (List Char) :=
  ["info".data, "warn".data, "warning".data, "error".data,
   "critical".data, "debug".data]

/-- Matching of the level-token regex
`^\[(info|warn|warning|error|critical|debug)\]` (case-insensitive) at the
start of the content; on success returns the captured token (lowercased, as
the source lowercases it before the switch) and the text following the
closing bracket. -/
def matchToken (cs : List Char) : Option (List Char × List Char) :=
  match cs with
  | '[' :: t => firstAlt levelAlts t
  | _ => none

/-- The `switch` in `parseLogLine` mapping an extracted token to a level:
`warn`/`warning` to warning, `error` to error, `critical` to critical, and
`info`/`debug` (and the default arm) to info. -/
def tokenLevel (tok : List Char) : Level :=
  if tok = "warn".data ∨ tok = "warning".data then Level.warning
  else if tok = "error".data then Level.error
  else if tok = "critical".data then Level.critical
  else Level.info

/-- Literal prefix test on character lists. -/
def hasPrefix : List Char → List Char → Bool
  | [], _ => true
  | _ :: _, [] => false
  | p :: ps, c :: cs => p = c && hasPrefix ps cs

/-- Contiguous-substring occurrence test on character lists. -/
def occursIn (pat : List Char) : List Char → Bool
  | [] => hasPrefix pat []
  | c :: cs => hasPrefix pat (c :: cs) || occursIn pat cs

/-- `re.test(content)` for an alternation of literal lowercase words with the
`i` flag: some alternative occurs as a substring of the lowercased content. -/
def reTest (alts : List (List Char)) (hay : List Char) : Bool :=
  alts.any (fun a => occursIn a (hay.map Char.toLower))

/-- Alternatives of `/error|exception|fail/i`. -/
def errorAlts : List (List Char) := ["error".data, "exception".data, "fail".data]

/-- Alternatives of `/warn|warning/i`. -/
def warnAlts : List (List Char) := ["warn".data, "warning".data]

/-- Alternatives of `/critical|fatal/i`. -/
def critAlts : List (List Char) := ["critical".data, "fatal".data]

/-- The keyword-inference block of `parseLogLine`: only when the level is
still `info`, test `error|exception|fail`, then `warn|warning`, then
`critical|fatal`, in that source order. -/
def inferLevel (content : List Char) (lvl : Level) : Level :=
  if lvl = Level.info then
    if reTest errorAlts content then Level.error
    else if reTest warnAlts content then Level.warning
    else if reTest critAlts content then Level.critical
    else Level.info
  else lvl

/-- The structured entry `parseLogLine` produces (`PM2LogEntry` in the
source).  The `Date` timestamp is modelled by the matched timestamp text
(`none` meaning capture time, `new Date()`); `metadata.originalLine` is the
`originalLine` field. -/
structure PM2LogEntry where
  tsText : Option (List Char)
  level : Level
  message : List Char
  source : List Char
  category : List Char
  originalLine : List Char
deriving DecidableEq, Repr

/-- `PM2LogService.parseLogLine`: strip the timestamp prefix when present,
extract a bracketed level token when present (stripping it and trimming the
remainder), then run keyword inference — which the source guards only by
`level === 'info'`, so it also runs after an explicit `info`/`debug` token. -/
def parseLogLine (line : List Char) (defaultLevel : Level) : PM2LogEntry :=
  match matchToken (contentOf line) with
  | some (tok, rest) =>
    { tsText := (stripTimestamp line).map (fun _ => line.take 19)
      level := inferLevel (jsTrim rest) (tokenLevel tok)
      message := jsTrim rest
      source := "modl-panel".data
      category := "pm2".data
      originalLine := line }
  | none =>
    { tsText := (stripTimestamp line).map (fun _ => line.take 19)
      level := inferLevel (contentOf line) defaultLevel
      message := contentOf line
      source := "modl-panel".data
      category := "pm2".data
      originalLine := line }

theorem wsDotPlus_ne_nil (rest : List Char) (c : List Char)
    (h : wsDotPlus rest = some c) : c ≠ [] := by
  unfold wsDotPlus at h
  split_ifs at h with he hok
  · cases hl : rest.getLast? with
    | none => rw [hl] at h; exact Option.noConfusion h
    | some ch =>
      rw [hl] at h
      by_cases ht : lineTerm ch = true
      · simp [ht] at h
      · simp [ht] at h
        intro hc
        simp [hc] at h
  · obtain rfl := Option.some.inj h
    simpa using he

theorem stripTimestamp_ne_nil (line : List Char) (c : List Char)
    (h : stripTimestamp line = some c) : c ≠ [] := by
  unfold stripTimestamp at h
  cases hm : matchShape tsShape line with
  | none => rw [hm] at h; exact Option.noConfusion h
  | some rest => rw [hm] at h; exact wsDotPlus_ne_nil rest c h

theorem contentOf_ne_nil (line : List Char) (h : line ≠ []) :
    contentOf line ≠ [] := by
  unfold contentOf
  cases hs : stripTimestamp line with
  | none => simpa using h
  | some c => simpa using stripTimestamp_ne_nil line c hs

/-! ## Chunk handling (stdout/stderr data events) -/

/-- JavaScript `chunk.split('\n')`: split on every newline, keeping empty
segments. -/
def splitLines (cs : List Char) : List (List Char) :=
  cs.splitOn '\n'

/-- The blank-line guard at the top of `processLogLine`
(`if (!line.trim()) return;`) followed by the parse: `none` when the line is
blank, the parsed entry otherwise. -/
def parsedLine (line : List Char) (d : Level) : Option PM2LogEntry :=
  if (jsTrim line).isEmpty then none else some (parseLogLine line d)

/-- The stdout data handler: split the chunk on newlines, keep lines whose
trim is non-empty, and process each with default level `info`. -/
def handleStdoutChunk (chunk : List Char) : List PM2LogEntry :=
  ((splitLines chunk).filter (fun l => !(jsTrim l).isEmpty)).filterMap
    (fun l => parsedLine l Level.info)

/-- The stderr data handler: the whole chunk is passed to `processLogLine` as
a single line with default level `error` (the source does not split stderr
chunks). -/
def handleStderrChunk (chunk : List Char) : List PM2LogEntry :=
  (parsedLine chunk Level.error).toList

/-! ## Per-record fan-out pipeline (persist / publish / notify) -/

/-- try/catch: run the computation, and on an exception run the handler. -/
def catchErr (x : Except Unit α) (h : Unit → Except Unit α) : Except Unit α :=
  match x with
  | Except.ok a => Except.ok a
  | Except.error e => h e

/-- The underlying store write (`systemLog.save()`): fails when the store is
failing. -/
def dbWrite (storeOk : Bool) : Except Unit Unit :=
  if storeOk then Except.ok () else Except.error ()

/-- `PM2LogService.saveLogToDatabase`: the store write wrapped in its own
try/catch which logs and swallows the error.  Returns whether the write
succeeded; never propagates an exception. -/
def saveLogToDatabase (storeOk : Bool) : Except Unit Bool :=
  catchErr (do
    dbWrite storeOk
    pure true)
    (fun _ => Except.ok false)

/-- `PM2LogService.sendDiscordNotificationIfNeeded`: returns whether a
notification send is dispatched — only for `error`/`critical` entries and only
when the webhook is configured; the asynchronous send catches its own
failures. -/
def notifyIfNeeded (configured : Bool) (e : PM2LogEntry) : Bool :=
  if e.level ≠ Level.error ∧ e.level ≠ Level.critical then false
  else if configured = false then false
  else true

/-- Which effects a processing call performed for one record. -/
structure FanoutTrace where
  persisted : Bool
  published : Bool
  notified : Bool
deriving DecidableEq, Repr

/-- The shared body of `processLogLine` and `testLogEntry`: persist (with the
save's internal catch), publish to the real-time channel, dispatch the
notification when needed — all inside the caller's try/catch, so no exception
escapes. -/
def processRecord (storeOk configured : Bool) (e : PM2LogEntry) :
    Except Unit FanoutTrace :=
  catchErr (do
    let saved ← saveLogToDatabase storeOk
    pure { persisted := saved, published := true,
           notified := notifyIfNeeded configured e })
    (fun _ => Except.ok { persisted := false, published := false, notified := false })

/-- `PM2LogService.testLogEntry`: a caller-supplied record runs through the
same persist/publish/notify pipeline. -/
def testLogEntry (storeOk configured : Bool) (e : PM2LogEntry) :
    Except Unit FanoutTrace :=
  processRecord storeOk configured e

/-- `PM2LogService.processLogLine` with its effects: blank lines are skipped,
any other line is parsed and fanned out. -/
def processLogLine (storeOk configured : Bool) (line : List Char) (d : Level) :
    Except Unit (Option FanoutTrace) :=
  match parsedLine line d with
  | none => Except.ok none
  | some e => (processRecord storeOk configured e).map some

/-! ## Streaming / reconnect state machine -/

/-- The mutable fields of `PM2LogService` relevant to the streaming state
machine, plus two instrumentation fields: `spawnCalls` counts invocations of
the subprocess spawn, and `scheduledDelays` records the delay of every
reconnect timer ever scheduled. -/
structure StreamerState where
  isStreaming : Bool
  isEnabled : Bool
  logProcess : Bool
  reconnectPending : Bool
  reconnectAttempts : Nat
  spawnCalls : Nat
  scheduledDelays : List Nat
deriving DecidableEq, Repr

/-- `maxReconnectAttempts` in the source. -/
def maxReconnectAttempts : Nat := 5

/-- `Math.min(1000 * Math.pow(2, attempts), 30000)`. -/
def backoffDelay (attempts : Nat) : Nat :=
  min (1000 * 2 ^ attempts) 30000

/-- `PM2LogService.scheduleReconnect`: at the ceiling, mark streaming off and
return; otherwise increment the attempt counter first and schedule a timer
with the capped exponential delay. -/
def scheduleReconnect (s : StreamerState) : StreamerState :=
  if maxReconnectAttempts ≤ s.reconnectAttempts then
    { s with isStreaming := false }
  else
    { s with reconnectAttempts := s.reconnectAttempts + 1,
             reconnectPending := true,
             scheduledDelays := s.scheduledDelays ++ [backoffDelay (s.reconnectAttempts + 1)] }

/-- `PM2LogService.startLogProcess` with the spawn outcome made explicit:
when the spawn returns a handle (`ok`), the process is live and the attempt
counter resets to 0; when the spawn throws, the catch block schedules a
reconnect if still streaming. -/
def startLogProcess (ok : Bool) (s : StreamerState) : StreamerState :=
  if ok then
    { s with spawnCalls := s.spawnCalls + 1, logProcess := true,
             reconnectAttempts := 0 }
  else if s.isStreaming then
    scheduleReconnect { s with spawnCalls := s.spawnCalls + 1 }
  else
    { s with spawnCalls := s.spawnCalls + 1 }

/-- `PM2LogService.startStreaming`: no-op when disabled or already streaming;
otherwise mark streaming and start the subprocess. -/
def startStreaming (ok : Bool) (s : StreamerState) : StreamerState :=
  if s.isEnabled = false then s
  else if s.isStreaming then s
  else startLogProcess ok { s with isStreaming := true }

/-- `PM2LogService.stopStreaming`: mark streaming off, kill any live process,
clear any pending reconnect timer. -/
def stopStreaming (s : StreamerState) : StreamerState :=
  { s with isStreaming := false, logProcess := false, reconnectPending := false }

/-- `PM2LogService.enable`. -/
def enableService (s : StreamerState) : StreamerState :=
  { s with isEnabled := true }

/-- `PM2LogService.disable`: clear the enabled flag, and call `stopStreaming`
only when currently streaming. -/
def disableService (s : StreamerState) : StreamerState :=
  if s.isStreaming then stopStreaming { s with isEnabled := false }
  else { s with isEnabled := false }

/-- The `close`/`error` handler of a live subprocess: the handle is cleared,
and a reconnect is scheduled if still streaming.  A no-op when no process is
live (the events of an already-killed process find `isStreaming` false and
`logProcess` already null). -/
def handleProcExit (s : StreamerState) : StreamerState :=
  if s.logProcess then
    (if s.isStreaming then scheduleReconnect { s with logProcess := false }
     else { s with logProcess := false })
  else s

/-- The reconnect timer firing: the timer is no longer pending, and the
callback starts the subprocess only if still streaming. -/
def fireReconnectTimer (ok : Bool) (s : StreamerState) : StreamerState :=
  if s.reconnectPending then
    (if s.isStreaming then startLogProcess ok { s with reconnectPending := false }
     else { s with reconnectPending := false })
  else s

/-- Events driving the state machine: the public operations, subprocess
close/error, and the reconnect timer firing.  The `Bool` on `start` and
`timerFire` is the outcome of the spawn they attempt. -/
inductive Ev where
  | start (ok : Bool)
  | stop
  | enable
  | disable
  | procExit
  | timerFire (ok : Bool)
deriving DecidableEq, Repr

/-- One step of the state machine. -/
def step (s : StreamerState) (e : Ev) : StreamerState :=
  match e with
  | Ev.start ok => startStreaming ok s
  | Ev.stop => stopStreaming s
  | Ev.enable => enableService s
  | Ev.disable => disableService s
  | Ev.procExit => handleProcExit s
  | Ev.timerFire ok => fireReconnectTimer ok s

/-- Run a sequence of events. -/
def run (s : StreamerState) (evs : List Ev) : StreamerState :=
  evs.foldl step s

/-- The state at service construction with the enable flag set (the
environment default). -/
def initState : StreamerState :=
  { isStreaming := false, isEnabled := true, logProcess := false,
    reconnectPending := false, reconnectAttempts := 0, spawnCalls := 0,
    scheduledDelays := [] }

/-- States reachable from the initial state. -/
inductive Reachable : StreamerState → Prop where
  | init : Reachable initState
  | step (s : StreamerState) (e : Ev) : Reachable s → Reachable (step s e)

/-- Whether an event is the public `start` operation. -/
def evIsStart : Ev → Bool
  | Ev.start _ => true
  | _ => false

/-! ## State-machine invariants -/

/-- The inductive invariant of the streamer: a pending reconnect timer only
exists while streaming, a live process excludes a pending timer, and a live
process implies streaming. -/
def Inv (s : StreamerState) : Prop :=
  (s.isStreaming = false → s.reconnectPending = false) ∧
  (s.logProcess = true → s.reconnectPending = false) ∧
  (s.logProcess = true → s.isStreaming = true)

theorem inv_initState : Inv initState := by
  unfold Inv initState
  decide

theorem scheduleReconnect_inv (s : StreamerState) (hp : s.logProcess = false)
    (hr : s.reconnectPending = false) (hs : s.isStreaming = true) :
    Inv (scheduleReconnect s) := by
  unfold scheduleReconnect Inv
  split_ifs with h
  · exact ⟨fun _ => hr, fun _ => hr, fun hl => by simp [hp] at hl⟩
  · exact ⟨fun hst => by simp [hs] at hst, fun hl => by simp [hp] at hl,
      fun hl => by simp [hp] at hl⟩

theorem startLogProcess_inv (ok : Bool) (s : StreamerState)
    (hr : s.reconnectPending = false) (hs : s.isStreaming = true)
    (hp : s.logProcess = false) :
    Inv (startLogProcess ok s) := by
  unfold startLogProcess
  split_ifs with hok
  · exact ⟨fun hst => by simp [hs] at hst, fun _ => hr, fun _ => hs⟩
  · exact scheduleReconnect_inv _ (by simpa using hp) (by simpa using hr)
      (by simpa using hs)

theorem inv_step (s : StreamerState) (e : Ev) (h : Inv s) : Inv (step s e) := by
  obtain ⟨h1, h2, h3⟩ := h
  cases e with
  | start ok =>
    unfold step startStreaming
    split_ifs with he hstr
    · exact ⟨h1, h2, h3⟩
    · exact ⟨h1, h2, h3⟩
    · have hs0 : s.isStreaming = false := by
        cases hb : s.isStreaming
        · rfl
        · exact absurd hb hstr
      have hp0 : s.logProcess = false := by
        cases hb : s.logProcess
        · rfl
        · exact absurd (h3 hb) hstr
      exact startLogProcess_inv ok _ (by simpa using h1 hs0) (by simp)
        (by simpa using hp0)
  | stop =>
    unfold step stopStreaming
    exact ⟨fun _ => rfl, fun hl => by simp at hl, fun hl => by simp at hl⟩
  | enable =>
    unfold step enableService
    exact ⟨h1, h2, h3⟩
  | disable =>
    unfold step disableService
    split_ifs with hstr
    · unfold stopStreaming
      exact ⟨fun _ => rfl, fun hl => by simp at hl, fun hl => by simp at hl⟩
    · exact ⟨h1, h2, h3⟩
  | procExit =>
    unfold step handleProcExit
    split_ifs with hl hstr
    · unfold scheduleReconnect
      split_ifs with hceil
      · exact ⟨fun _ => by simpa using h2 hl, fun hc => by simp at hc,
          fun hc => by simp at hc⟩
      · exact ⟨fun hst => by simp [hstr] at hst, fun hc => by simp at hc,
          fun hc => by simp at hc⟩
    · exact ⟨fun _ => by simpa using h2 hl, fun hc => by simp at hc,
        fun hc => by simp at hc⟩
    · exact ⟨h1, h2, h3⟩
  | timerFire ok =>
    unfold step fireReconnectTimer
    split_ifs with hr hstr
    · have hp0 : s.logProcess = false := by
        cases hb : s.logProcess
        · rfl
        · exact absurd hr (by simp [h2 hb])
      exact startLogProcess_inv ok _ (by simp) (by simpa using hstr)
        (by simpa using hp0)
    · exact ⟨fun _ => rfl, fun _ => rfl,
        fun hc => by simpa using h3 (by simpa using hc)⟩
    · exact ⟨h1, h2, h3⟩

theorem reachable_inv (s : StreamerState) (h : Reachable s) : Inv s := by
  induction h with
  | init => exact inv_initState
  | step s e _ ih => exact inv_step s e ih

theorem reachable_run (s : StreamerState) (evs : List Ev) (h : Reachable s) :
    Reachable (run s evs) := by
  induction evs generalizing s with
  | nil => exact h
  | cons e es ih => exact ih (step s e) (Reachable.step s e h)

/-! ## Quiescence after the retry machinery is shut down -/

/-- A state with no live process and no pending timer: nothing but an
explicit `start` can spawn a subprocess or schedule a timer from here. -/
def Quiescent (s : StreamerState) : Prop :=
  s.logProcess = false ∧ s.reconnectPending = false

theorem quiescent_step (s : StreamerState) (e : Ev) (hq : Quiescent s)
    (he : evIsStart e = false) :
    Quiescent (step s e) ∧ (step s e).spawnCalls = s.spawnCalls ∧
      (step s e).scheduledDelays = s.scheduledDelays := by
  obtain ⟨hp, hr⟩ := hq
  cases e with
  | start ok => simp [evIsStart] at he
  | stop =>
    exact ⟨⟨rfl, rfl⟩, rfl, rfl⟩
  | enable =>
    exact ⟨⟨hp, hr⟩, rfl, rfl⟩
  | disable =>
    unfold step disableService
    split_ifs with hstr
    · exact ⟨⟨rfl, rfl⟩, rfl, rfl⟩
    · exact ⟨⟨hp, hr⟩, rfl, rfl⟩
  | procExit =>
    unfold step handleProcExit
    rw [hp]
    exact ⟨⟨hp, hr⟩, rfl, rfl⟩
  | timerFire ok =>
    unfold step fireReconnectTimer
    rw [hr]
    exact ⟨⟨hp, hr⟩, rfl, rfl⟩

theorem quiescent_run (s : StreamerState) (evs : List Ev) (hq : Quiescent s)
    (h : ∀ e ∈ evs, evIsStart e = false) :
    Quiescent (run s evs) ∧ (run s evs).spawnCalls = s.spawnCalls ∧
      (run s evs).scheduledDelays = s.scheduledDelays := by
  induction evs generalizing s with
  | nil => exact ⟨hq, rfl, rfl⟩
  | cons e es ih =>
    have hstep := quiescent_step s e hq (h e (List.mem_cons_self e es))
    have hrest := ih (step s e) hstep.1 (fun x hx => h x (List.mem_cons_of_mem e hx))
    exact ⟨hrest.1, hrest.2.1.trans hstep.2.1, hrest.2.2.trans hstep.2.2⟩

/-! ## Parsing claims -/

theorem isEmpty_false_of_ne_nil {l : List Char} (h : l ≠ []) :
    l.isEmpty = false := by
  cases l with
  | nil => exact absurd rfl h
  | cons a as => rfl

theorem filterMap_parsedLine (d : Level) (ls : List (List Char))
    (h : ∀ l ∈ ls, (jsTrim l).isEmpty = false) :
    ls.filterMap (fun l => parsedLine l d) = ls.map (fun l => parseLogLine l d) := by
  induction ls with
  | nil => rfl
  | cons a as ih =>
    have ha := h a (List.mem_cons_self a as)
    have ha' : jsTrim a ≠ [] := by
      intro he
      rw [he] at ha
      exact Bool.noConfusion ha
    have hrest := ih (fun x hx => h x (List.mem_cons_of_mem a hx))
    simp [parsedLine] at hrest
    simp [List.filterMap_cons, parsedLine, ha', hrest]

/-- Claim C1 (counterexample): the claim says an explicit bracketed token
always determines the level, and in particular that
`"[info] this is an error"` parses to level `info`; on the code the keyword
inference block runs whenever the level is `info` — including after an
explicit `[info]` token — so this line parses to level `error`. -/
theorem c1_counterexample :
    (parseLogLine ("[info] this is an error".data) Level.info).level ≠ Level.info ∧
    (parseLogLine ("[info] this is an error".data) Level.info).level = Level.error := by
  constructor
  · decide
  · decide

/-- Claim C1 (amended): an explicit bracketed token in
`{warn, warning, error, critical}` determines the level regardless of the
rest of the message; the tokens `info` and `debug` set the level to `info`,
after which keyword inference still runs on the stripped message, so
`"[info] this is an error"` parses to level `error`. -/
theorem c1_explicit_token_wins :
    (∀ (line : List Char) (d : Level) (tok rest : List Char),
        matchToken (contentOf line) = some (tok, rest) →
        (tok = "warn".data ∨ tok = "warning".data ∨ tok = "error".data ∨
          tok = "critical".data) →
        (parseLogLine line d).level = tokenLevel tok) ∧
    (parseLogLine ("[info] this is an error".data) Level.info).level = Level.error := by
  constructor
  · intro line d tok rest hm htok
    unfold parseLogLine
    rw [hm]
    show inferLevel (jsTrim rest) (tokenLevel tok) = tokenLevel tok
    rcases htok with h | h | h | h <;> subst h <;> rfl
  · decide

/-- Witness for C1: a `[warn]` token wins even though the remainder mentions
both `critical` and `failure`. -/
theorem c1_explicit_token_wins_witness :
    (parseLogLine ("[warn] critical failure".data) Level.info).level =
      tokenLevel ("warn".data) :=
  c1_explicit_token_wins.1 ("[warn] critical failure".data) Level.info
    ("warn".data) (" critical failure".data) (by decide) (Or.inl rfl)

/-- Claim C2 (counterexample): the claim says keyword precedence is
`critical|fatal` first, so a message containing both "warning" and
"critical" should yield `critical`; the code tests `error|exception|fail`
first, then `warn|warning`, then `critical|fatal`, so
`"warning critical"` yields `warning`. -/
theorem c2_counterexample :
    occursIn ("warning".data) (("warning critical".data).map Char.toLower) = true ∧
    occursIn ("critical".data) (("warning critical".data).map Char.toLower) = true ∧
    matchToken (contentOf ("warning critical".data)) = none ∧
    (parseLogLine ("warning critical".data) Level.info).level ≠ Level.critical ∧
    (parseLogLine ("warning critical".data) Level.info).level = Level.warning := by
  refine ⟨by decide, by decide, by decide, by decide, by decide⟩

/-- Claim C2 (amended): for a line with no explicit bracketed token and
default level `info`, keyword inference follows the source precedence
`error|exception|fail`, then `warn|warning`, then `critical|fatal`, else
`info`; a message containing both "warning" and "critical" yields
`warning`. -/
theorem c2_keyword_precedence :
    (∀ line : List Char,
        matchToken (contentOf line) = none →
        (parseLogLine line Level.info).level =
          (if reTest errorAlts (contentOf line) then Level.error
           else if reTest warnAlts (contentOf line) then Level.warning
           else if reTest critAlts (contentOf line) then Level.critical
           else Level.info)) ∧
    (parseLogLine ("warning critical".data) Level.info).level = Level.warning := by
  constructor
  · intro line hm
    unfold parseLogLine
    rw [hm]
    show inferLevel (contentOf line) Level.info = _
    rfl
  · decide

/-- Witness for C2: a line with no token and no keywords stays at the
inference result. -/
theorem c2_keyword_precedence_witness :
    (parseLogLine ("hello".data) Level.info).level =
      (if reTest errorAlts (contentOf ("hello".data)) then Level.error
       else if reTest warnAlts (contentOf ("hello".data)) then Level.warning
       else if reTest critAlts (contentOf ("hello".data)) then Level.critical
       else Level.info) :=
  c2_keyword_precedence.1 ("hello".data) (by decide)

/-- Claim C7 (counterexample): the claim says the message is non-empty for
every non-blank input line; the non-blank line `"[info]"` parses to an empty
message, because the level token is stripped and the remainder trimmed. -/
theorem c7_counterexample :
    jsTrim ("[info]".data) ≠ [] ∧
    (parseLogLine ("[info]".data) Level.info).message = [] := by
  constructor
  · decide
  · decide

/-- Claim C7 (amended): for a non-blank input line the parsed message is
empty exactly when the content (after optional timestamp stripping) is a
bracketed level token followed only by whitespace; otherwise the message is
non-empty. -/
theorem c7_message_empty_iff :
    ∀ (line : List Char) (d : Level), jsTrim line ≠ [] →
      ((parseLogLine line d).message = [] ↔
        ∃ tok rest, matchToken (contentOf line) = some (tok, rest) ∧
          jsTrim rest = []) := by
  intro line d hline
  cases hm : matchToken (contentOf line) with
  | some pr =>
    obtain ⟨tok, rest⟩ := pr
    unfold parseLogLine
    rw [hm]
    show jsTrim rest = [] ↔ _
    constructor
    · intro h
      exact ⟨tok, rest, rfl, h⟩
    · rintro ⟨t, r, hmr, hr⟩
      simp only [Option.some.injEq, Prod.mk.injEq] at hmr
      obtain ⟨h1, h2⟩ := hmr
      subst h1
      subst h2
      exact hr
  | none =>
    unfold parseLogLine
    rw [hm]
    show contentOf line = [] ↔ _
    constructor
    · intro h
      have hne : line ≠ [] := by
        intro he
        exact hline (by rw [he]; rfl)
      exact absurd h (contentOf_ne_nil line hne)
    · rintro ⟨t, r, hmr, -⟩
      exact Option.noConfusion hmr

/-- Witness for C7: a plain word line has a non-empty message. -/
theorem c7_message_empty_iff_witness :
    ¬ (parseLogLine ("hello".data) Level.info).message = [] := by
  intro hm
  have h := (c7_message_empty_iff ("hello".data) Level.info (by decide)).mp hm
  obtain ⟨tok, rest, hmr, -⟩ := h
  have hn : matchToken (contentOf ("hello".data)) = none := by decide
  rw [hn] at hmr
  exact Option.noConfusion hmr

/-- Claim C8 (counterexample): the claim says every data chunk from both
stdout and stderr is split into lines with each non-blank line processed as
one record; the stderr chunk `"a\nb"` contains two non-blank lines but is
processed as a single record (the stdout handler would produce two). -/
theorem c8_counterexample :
    ((splitLines ("a\nb".data)).filter (fun l => !(jsTrim l).isEmpty)).length = 2 ∧
    (handleStderrChunk ("a\nb".data)).length = 1 ∧
    (handleStdoutChunk ("a\nb".data)).length = 2 := by
  refine ⟨by decide, by decide, by decide⟩

/-- Claim C8 (amended): each stdout data chunk is split on newlines and every
non-blank line yields one record parsed with default level `info`; each
stderr data chunk is processed whole as a single line (not split) with
default level `error` applied before line-level inference, yielding one
record when the chunk is non-blank and none otherwise. -/
theorem c8_chunk_handling :
    (∀ chunk : List Char,
        handleStdoutChunk chunk =
          ((splitLines chunk).filter (fun l => !(jsTrim l).isEmpty)).map
            (fun l => parseLogLine l Level.info)) ∧
    (∀ chunk : List Char, jsTrim chunk ≠ [] →
        handleStderrChunk chunk = [parseLogLine chunk Level.error]) ∧
    (∀ chunk : List Char, jsTrim chunk = [] → handleStderrChunk chunk = []) := by
  refine ⟨?_, ?_, ?_⟩
  · intro chunk
    unfold handleStdoutChunk
    apply filterMap_parsedLine
    intro l hl
    have h2 := (List.mem_filter.mp hl).2
    simpa using h2
  · intro chunk hc
    unfold handleStderrChunk parsedLine
    rw [if_neg (by simp [isEmpty_false_of_ne_nil hc])]
    rfl
  · intro chunk hc
    unfold handleStderrChunk parsedLine
    rw [if_pos (by simp [hc])]
    rfl

/-- Witness for C8: a one-line stderr chunk yields exactly the record parsed
with default level `error`. -/
theorem c8_chunk_handling_witness :
    handleStderrChunk ("oops".data) = [parseLogLine ("oops".data) Level.error] :=
  c8_chunk_handling.2.1 ("oops".data) (by decide)

/-! ## Reconnect / streaming claims -/

/-- The C3 scenario: a successful attachment, the subprocess terminating, and
`n` failed reattachment attempts (each scheduled timer fires and the spawn
throws). -/
def c3FailureTrace (n : Nat) : List Ev :=
  Ev.start true :: Ev.procExit :: List.replicate n (Ev.timerFire false)

/-- Claim C3: starting from a successful attachment whose subprocess then
terminates, after exactly 5 consecutive failed reattachment attempts (no
intervening success) streaming becomes false with no pending reconnect
timer — after only 4 it is still true with a timer pending — and from the
stopped state no event other than an explicit `start` ever schedules a timer
or attempts a spawn, while an explicit successful `start` resumes streaming
and resets the attempt counter. -/
theorem c3_five_failures :
    (run initState (c3FailureTrace 4)).isStreaming = true ∧
    (run initState (c3FailureTrace 4)).reconnectPending = true ∧
    (run initState (c3FailureTrace 5)).isStreaming = false ∧
    (run initState (c3FailureTrace 5)).reconnectPending = false ∧
    (∀ evs : List Ev, (∀ e ∈ evs, evIsStart e = false) →
      (run (run initState (c3FailureTrace 5)) evs).reconnectPending = false ∧
      (run (run initState (c3FailureTrace 5)) evs).spawnCalls =
        (run initState (c3FailureTrace 5)).spawnCalls ∧
      (run (run initState (c3FailureTrace 5)) evs).scheduledDelays =
        (run initState (c3FailureTrace 5)).scheduledDelays) ∧
    (run (run initState (c3FailureTrace 5)) [Ev.start true]).isStreaming = true ∧
    (run (run initState (c3FailureTrace 5)) [Ev.start true]).logProcess = true ∧
    (run (run initState (c3FailureTrace 5)) [Ev.start true]).reconnectAttempts = 0 := by
  refine ⟨by decide, by decide, by decide, by decide, ?_, by decide, by decide, by decide⟩
  intro evs h
  have hq : Quiescent (run initState (c3FailureTrace 5)) := ⟨by decide, by decide⟩
  have hrun := quiescent_run _ evs hq h
  exact ⟨hrun.1.2, hrun.2.1, hrun.2.2⟩

/-- Witness for C3: once stopped, an elapsed timer event attempts no spawn. -/
theorem c3_five_failures_witness :
    (run (run initState (c3FailureTrace 5)) [Ev.timerFire true]).spawnCalls =
      (run initState (c3FailureTrace 5)).spawnCalls :=
  (c3_five_failures.2.2.2.2.1 [Ev.timerFire true] (by decide)).2.1

/-- Claim C4: on an unexpected termination of a live attachment while
streaming (below the retry ceiling) the attempt counter is incremented first
and the retry delay is `min(1000 * 2 ^ attempts, 30000)` milliseconds for the
incremented counter; three consecutive attachment failures schedule backoff
delays of 2000 ms, 4000 ms and 8000 ms. -/
theorem c4_backoff :
    (∀ s : StreamerState, s.logProcess = true → s.isStreaming = true →
        s.reconnectAttempts < maxReconnectAttempts →
        (handleProcExit s).reconnectAttempts = s.reconnectAttempts + 1 ∧
        (handleProcExit s).scheduledDelays =
          s.scheduledDelays ++ [min (1000 * 2 ^ (s.reconnectAttempts + 1)) 30000]) ∧
    (run initState [Ev.start false, Ev.timerFire false, Ev.timerFire false]).scheduledDelays =
      [2000, 4000, 8000] := by
  constructor
  · intro s hp hs hlt
    have hnot := not_le.mpr hlt
    constructor <;> simp [handleProcExit, hp, hs, scheduleReconnect, hnot, backoffDelay]
  · decide

/-- Witness for C4: the first failure after a fresh successful attachment
increments the counter from 0 to 1 and schedules a 2000 ms retry. -/
theorem c4_backoff_witness :
    (handleProcExit (run initState [Ev.start true])).reconnectAttempts =
        (run initState [Ev.start true]).reconnectAttempts + 1 ∧
      (handleProcExit (run initState [Ev.start true])).scheduledDelays =
        (run initState [Ev.start true]).scheduledDelays ++
          [min (1000 * 2 ^ ((run initState [Ev.start true]).reconnectAttempts + 1)) 30000] :=
  c4_backoff.1 (run initState [Ev.start true]) (by decide) (by decide) (by decide)

/-- Claim C5 (counterexample): the claim says streaming is true only while a
live subprocess handle exists, and false while a reconnect timer is pending;
after a successful attachment terminates, streaming is still true although
the handle is gone and a reconnect timer is pending. -/
theorem c5_counterexample :
    (run initState [Ev.start true, Ev.procExit]).isStreaming = true ∧
    (run initState [Ev.start true, Ev.procExit]).logProcess = false ∧
    (run initState [Ev.start true, Ev.procExit]).reconnectPending = true := by
  refine ⟨by decide, by decide, by decide⟩

/-- Claim C5 (amended): in every reachable state, a live subprocess handle
exists only while streaming is true, and a pending reconnect timer also
implies streaming is true (not false, as claimed): streaming means
"attached or awaiting reconnect", not "attachment live". -/
theorem c5_handle_only_while_streaming :
    ∀ s : StreamerState, Reachable s →
      (s.logProcess = true → s.isStreaming = true) ∧
      (s.reconnectPending = true → s.isStreaming = true) := by
  intro s h
  have hinv := reachable_inv s h
  refine ⟨hinv.2.2, ?_⟩
  intro hr
  cases hb : s.isStreaming
  · exact absurd hr (by simp [hinv.1 hb])
  · rfl

/-- Witness for C5: the freshly attached state has a live handle, hence
streaming. -/
theorem c5_handle_only_while_streaming_witness :
    (run initState [Ev.start true]).isStreaming = true := by
  have hre : Reachable (run initState [Ev.start true]) :=
    reachable_run initState [Ev.start true] Reachable.init
  exact (c5_handle_only_while_streaming _ hre).1 (by decide)

/-- Claim C6: from any reachable state, `disable()` leaves streaming false,
enabled false and no pending reconnect timer, and afterwards no sequence of
events that does not contain an explicit `start` ever attempts a spawn —
in particular the elapse of a previously scheduled backoff delay attaches
nothing. -/
theorem c6_disable :
    ∀ s : StreamerState, Reachable s →
      (disableService s).isStreaming = false ∧
      (disableService s).isEnabled = false ∧
      (disableService s).reconnectPending = false ∧
      (∀ evs : List Ev, (∀ e ∈ evs, evIsStart e = false) →
        (run (disableService s) evs).spawnCalls = (disableService s).spawnCalls) := by
  intro s h
  have hinv := reachable_inv s h
  have hkey : (disableService s).isStreaming = false ∧
      (disableService s).isEnabled = false ∧ Quiescent (disableService s) := by
    unfold disableService
    split_ifs with hstr
    · exact ⟨rfl, rfl, rfl, rfl⟩
    · have hs0 : s.isStreaming = false := by
        cases hb : s.isStreaming
        · rfl
        · exact absurd hb hstr
      have hp0 : s.logProcess = false := by
        cases hb : s.logProcess
        · rfl
        · exact absurd (hinv.2.2 hb) hstr
      exact ⟨hs0, rfl, hp0, hinv.1 hs0⟩
  refine ⟨hkey.1, hkey.2.1, hkey.2.2.2, ?_⟩
  intro evs he
  exact (quiescent_run _ evs hkey.2.2 he).2.1

/-- Witness for C6: disabling while a reconnect timer is pending cancels it,
and the timer later firing attempts no spawn. -/
theorem c6_disable_witness :
    (disableService (run initState [Ev.start true, Ev.procExit])).reconnectPending = false ∧
    (run (disableService (run initState [Ev.start true, Ev.procExit]))
        [Ev.timerFire true]).spawnCalls =
      (disableService (run initState [Ev.start true, Ev.procExit])).spawnCalls := by
  have hre : Reachable (run initState [Ev.start true, Ev.procExit]) :=
    reachable_run initState [Ev.start true, Ev.procExit] Reachable.init
  have h := c6_disable _ hre
  exact ⟨h.2.2.1, h.2.2.2 [Ev.timerFire true] (by decide)⟩

/-- Claim C9: for every record — from a live line or `testLogEntry` — a
persistence failure neither prevents the fan-out publish nor changes whether
a notification is attempted, and the processing call returns normally
(no exception escapes); likewise for a full non-blank line through
`processLogLine`. -/
theorem c9_persist_failure_isolated :
    ∀ (e : PM2LogEntry) (configured : Bool),
      (∃ t t', processRecord false configured e = Except.ok t ∧
        processRecord true configured e = Except.ok t' ∧
        t.persisted = false ∧ t.published = true ∧
        t.published = t'.published ∧ t.notified = t'.notified) ∧
      testLogEntry false configured e = processRecord false configured e ∧
      (∀ (line : List Char) (d : Level), jsTrim line ≠ [] →
        processLogLine false configured line d =
          Except.ok (some
            ⟨false, true, notifyIfNeeded configured (parseLogLine line d)⟩)) := by
  intro e configured
  refine ⟨⟨⟨false, true, notifyIfNeeded configured e⟩,
           ⟨true, true, notifyIfNeeded configured e⟩,
           rfl, rfl, rfl, rfl, rfl, rfl⟩, rfl, ?_⟩
  intro line d hl
  unfold processLogLine parsedLine
  rw [if_neg (by simp [isEmpty_false_of_ne_nil hl])]
  rfl

/-- Witness for C9: a concrete stderr-style line with a failing store is
still published and notified. -/
theorem c9_persist_failure_isolated_witness :
    processLogLine false true ("boom".data) Level.error =
      Except.ok (some
        ⟨false, true, notifyIfNeeded true (parseLogLine ("boom".data) Level.error)⟩) :=
  (c9_persist_failure_isolated (parseLogLine ("boom".data) Level.error) true).2.2
    ("boom".data) Level.error (by decide)

/-- Claim C10: in every reachable state a pending reconnect timer implies
streaming is true (equivalently, streaming false implies no pending timer),
and every transition from a reachable state preserves this. -/
theorem c10_pending_implies_streaming :
    ∀ s : StreamerState, Reachable s →
      (s.reconnectPending = true → s.isStreaming = true) ∧
      (∀ e : Ev, (step s e).isStreaming = false → (step s e).reconnectPending = false) := by
  intro s h
  have hinv := reachable_inv s h
  constructor
  · intro hr
    cases hb : s.isStreaming
    · exact absurd hr (by simp [hinv.1 hb])
    · rfl
  · intro e
    exact (inv_step s e hinv).1

/-- Witness for C10: in the reconnecting state the pending timer coexists
only with streaming true. -/
theorem c10_pending_implies_streaming_witness :
    (run initState [Ev.start true, Ev.procExit]).isStreaming = true := by
  have hre : Reachable (run initState [Ev.start true, Ev.procExit]) :=
    reachable_run initState [Ev.start true, Ev.procExit] Reachable.init
  exact (c10_pending_implies_streaming _ hre).1 (by decide)

end ModlAdmin
